import Mathlib

/-!
Verification of the page-extraction pipeline of `src/app.py`
(`pdf_to_text` and the surrounding `main` glue).

The program is a sequential loop over externally produced page images:

* `pdf_to_text(pdf_file)` writes the uploaded bytes to a temporary file
  (`tempfile.NamedTemporaryFile(delete=False)`), calls the external
  rasterizer `convert_from_path`, then for each page (1-indexed) first
  reports progress (`status_text.text(f"Processing page {i}/{len(pages)}...")`
  and `progress_bar.progress(i / len(pages))`) and then runs the external
  OCR engine `pytesseract.image_to_string`, collects the page texts and
  returns `"\n".join(full_text)`; a `finally` block unlinks the temporary
  file.
* `main` classifies the outcome: an exception becomes an error message, an
  all-whitespace result becomes a warning, otherwise the text is shown and
  offered for download as
  `f"{uploaded_file.name.replace('.pdf', '')}_extracted.txt"` with MIME
  type `text/plain`.

The external collaborators (rasterizer, OCR engine, the byte source being
staged) are modelled as oracles packaged in an `Env`; each oracle either
succeeds with a value or fails with an error of an abstract type `Err`.
The observable behaviour of one call to `pdf_to_text` is collected in a
`Run`: the returned value or propagated error, the ordered list of
progress reports, the ordered list of 1-based page indices on which the
OCR engine was invoked, and whether the temporary file still exists when
the call is over.
-/

/-- Oracles for the external collaborators of `pdf_to_text`.

`writeStaged` models lines 12-14 of `src/app.py`: the temporary file is
created by `NamedTemporaryFile` and then `tmp_file.write(pdf_file.read())`
runs; an error here stands for a failure of `read` or `write` after the
temporary file already exists.  `convert_from_path` models the external
rasterizer (line 18) returning the ordered page images.  `image_to_string`
models the external OCR engine (line 29) on one page image. -/
structure Env (Img Err : Type) where
  writeStaged : Except Err Unit
  convert_from_path : Except Err (List Img)
  image_to_string : Img → Except Err String

/-- Observables of the per-page OCR loop (lines 25-30 of `src/app.py`). -/
structure LoopOut (Err : Type) where
  result : Except Err (List String)
  events : List (Nat × Nat)
  calls : List Nat

/-- Observables of one call to `pdf_to_text`:  `result` is the returned
string or the propagated exception, `events` the progress reports
`(currentPage, totalPages)` in emission order, `calls` the 1-based page
indices passed to the OCR engine in call order, and `tmpExists` whether
the staged temporary file still exists after the call finished. -/
structure Run (Err : Type) where
  result : Except Err String
  events : List (Nat × Nat)
  calls : List Nat
  tmpExists : Bool

/-- The loop `for i, page in enumerate(pages, start=1)` of `src/app.py`
(lines 25-30): for the page at 1-based index `i` it first emits the
progress report `(i, N)` (lines 26-27, before the OCR call), then invokes
the OCR engine (line 29); an OCR failure propagates out of the loop,
otherwise the page text is appended and the loop continues at `i + 1`. -/
def ocrLoop (f : Img → Except Err String) (N : Nat) :
    List Img → Nat → LoopOut Err
  | [], _ => ⟨Except.ok [], [], []⟩
  | p :: rest, i =>
    match f p with
    | Except.error e => ⟨Except.error e, [(i, N)], [i]⟩
    | Except.ok t =>
      let o := ocrLoop f N rest (i + 1)
      ⟨o.result.map (fun ts => t :: ts), (i, N) :: o.events, i :: o.calls⟩

/-- `pdf_to_text` of `src/app.py` (lines 8-37).  Staging the upload into
the temporary file happens before the `try` block, so a failure there
propagates with the temporary file left on disk (`tmpExists = true`).
Once inside the `try`, the `finally` clause (line 37) unlinks the
temporary file on every path, so `tmpExists = false` whether rasterization
fails, some OCR call fails, or the joined text is returned.  The returned
string is `"\n".join(full_text)` (line 33). -/
def pdf_to_text (env : Env Img Err) : Run Err :=
  match env.writeStaged with
  | Except.error e => ⟨Except.error e, [], [], true⟩
  | Except.ok _ =>
    match env.convert_from_path with
    | Except.error e => ⟨Except.error e, [], [], false⟩
    | Except.ok pages =>
      let o := ocrLoop env.image_to_string pages.length pages 1
      ⟨o.result.map (String.intercalate "\n"), o.events, o.calls, false⟩

/-- Outcome classification performed by `main` (lines 64-103 of
`src/app.py`). -/
inductive UiOutcome where
  | success
  | warning
  | error
  deriving Repr, DecidableEq

/-- The branching of `main` on the extraction outcome: an exception is
caught and shown as an error (lines 101-103); a returned text is shown as
a success when `extracted_text.strip()` is truthy, i.e. when some
character is not whitespace (line 68), and otherwise as the
no-text-found warning (lines 98-99). -/
def main_render (r : Except Err String) : UiOutcome :=
  match r with
  | Except.ok t =>
    if t.data.any (fun c => !c.isWhitespace) then UiOutcome.success
    else UiOutcome.warning
  | Except.error _ => UiOutcome.error

/-- Python's `name.replace('.pdf', '')` on the character list of the
name: every occurrence of `".pdf"` is removed, scanning left to right,
non-overlapping (line 94 of `src/app.py`). -/
def dropPdfAll : List Char → List Char
  | '.' :: 'p' :: 'd' :: 'f' :: rest => dropPdfAll rest
  | c :: cs => c :: dropPdfAll cs
  | [] => []

/-- Whether `".pdf"` occurs somewhere in the character list. -/
def hasPdf : List Char → Bool
  | '.' :: 'p' :: 'd' :: 'f' :: _ => true
  | _ :: cs => hasPdf cs
  | [] => false

/-- The download file name built by `main` (line 94 of `src/app.py`):
`f"{uploaded_file.name.replace('.pdf', '')}_extracted.txt"`. -/
def download_file_name (name : String) : String :=
  String.mk (dropPdfAll name.data) ++ "_extracted.txt"

/-- The MIME type passed to `st.download_button` (line 95). -/
def download_mime : String := "text/plain"

/-- The download name as the spec sentence for C7 words it, namely the
original name with the `".pdf"` suffix removed (and only the suffix, when
present) followed by `"_extracted.txt"`.  This is the comparison
definition following the spec's words; `download_file_name` embeds the
code. -/
def specSuffixName (name : String) : String :=
  (if name.data.reverse.take 4 = ['f', 'd', 'p', '.']
    then String.mk (name.data.reverse.drop 4).reverse
    else name) ++ "_extracted.txt"

/-- Joining a list of strings with a single `"\n"` inserted at every
boundary between consecutive elements: the explicit form of Python's
`"\n".join`. -/
def joinNL : List String → String
  | [] => ""
  | [t] => t
  | t :: ts => t ++ "\n" ++ joinNL ts

/-- The strings after the first element, each preceded by the separator. -/
def sepCat (s : String) : List String → String
  | [] => ""
  | a :: as => s ++ a ++ sepCat s as

theorem intercalate_go_eq (s : String) :
    ∀ (ts : List String) (acc : String),
      String.intercalate.go acc s ts = acc ++ sepCat s ts := by
  intro ts
  induction ts with
  | nil => intro acc; simp [String.intercalate.go, sepCat]
  | cons a as ih =>
    intro acc
    simp [String.intercalate.go, sepCat, ih, String.append_assoc]

theorem joinNL_cons_eq (t : String) (ts : List String) :
    joinNL (t :: ts) = t ++ sepCat "\n" ts := by
  induction ts generalizing t with
  | nil => simp [joinNL, sepCat]
  | cons a as ih =>
    simp [joinNL, sepCat, ih, String.append_assoc]

/-- `"\n".join` as written in the code (`String.intercalate "\n"`) agrees
with the explicit one-separator-per-boundary recursion `joinNL`. -/
theorem intercalate_eq_joinNL (ts : List String) :
    String.intercalate "\n" ts = joinNL ts := by
  cases ts with
  | nil => rfl
  | cons a as =>
    rw [joinNL_cons_eq]
    simpa [String.intercalate] using intercalate_go_eq "\n" as a

/-- When the OCR engine succeeds on every page (with texts given by `g`),
the loop returns all page texts in order, reports progress
`(i, N), (i+1, N), ...` once per page, and calls the engine once per page
in index order. -/
theorem ocrLoop_all_ok (f : Img → Except Err String) (g : Img → String)
    (N : Nat) :
    ∀ (pages : List Img) (i : Nat), (∀ p ∈ pages, f p = Except.ok (g p)) →
      ocrLoop f N pages i =
        ⟨Except.ok (pages.map g),
         (List.range' i pages.length).map (fun k => (k, N)),
         List.range' i pages.length⟩ := by
  intro pages
  induction pages with
  | nil => intro i h; simp [ocrLoop]
  | cons p rest ih =>
    intro i h
    have hp : f p = Except.ok (g p) := h p (List.mem_cons_self p rest)
    have hrest : ∀ q ∈ rest, f q = Except.ok (g q) :=
      fun q hq => h q (List.mem_cons_of_mem p hq)
    simp [ocrLoop, hp, ih (i + 1) hrest, List.range'_succ, Except.map]

/-- When the OCR engine succeeds on every page before `bad` and fails on
`bad` with error `e`, the loop propagates `e`, having reported progress
for pages `i .. i + good.length` (the failing page included, since the
report precedes the OCR call) and having called the engine exactly once
on each of those pages. -/
theorem ocrLoop_first_fail (f : Img → Except Err String) (g : Img → String)
    (N : Nat) (bad : Img) (e : Err) (rest : List Img)
    (hbad : f bad = Except.error e) :
    ∀ (good : List Img) (i : Nat), (∀ p ∈ good, f p = Except.ok (g p)) →
      ocrLoop f N (good ++ bad :: rest) i =
        ⟨Except.error e,
         (List.range' i (good.length + 1)).map (fun k => (k, N)),
         List.range' i (good.length + 1)⟩ := by
  intro good
  induction good with
  | nil => intro i h; simp [ocrLoop, hbad, List.range'_succ]
  | cons p gs ih =>
    intro i h
    have hp : f p = Except.ok (g p) := h p (List.mem_cons_self p gs)
    have hgs : ∀ q ∈ gs, f q = Except.ok (g q) :=
      fun q hq => h q (List.mem_cons_of_mem p hq)
    simp [ocrLoop, hp, ih (i + 1) hgs, List.range'_succ, Except.map]

/-- Every progress report emitted by the loop carries `N` as its second
component (the loop always reports `(i, len(pages))`). -/
theorem ocrLoop_events_snd (f : Img → Except Err String) (N : Nat) :
    ∀ (pages : List Img) (i : Nat) (ev : Nat × Nat),
      ev ∈ (ocrLoop f N pages i).events → ev.2 = N := by
  intro pages
  induction pages with
  | nil => intro i ev h; simp [ocrLoop] at h
  | cons p rest ih =>
    intro i ev h
    rcases hfp : f p with e | t
    · simp [ocrLoop, hfp] at h
      simp [h]
    · simp [ocrLoop, hfp] at h
      rcases h with h | h
      · simp [h]
      · exact ih (i + 1) ev h

/-- Exactly one `'\n'` is contributed per boundary: joining `N` page
texts yields the newlines already inside the texts plus `N - 1`
separators. -/
theorem joinNL_count_newlines :
    ∀ ts : List String, ts ≠ [] →
      (joinNL ts).data.count '\n' =
        (ts.map (fun t => t.data.count '\n')).sum + (ts.length - 1) := by
  intro ts
  induction ts with
  | nil => intro h; exact absurd rfl h
  | cons t ts ih =>
    intro _
    cases ts with
    | nil => simp [joinNL]
    | cons a as =>
      have hne : a :: as ≠ [] := by simp
      have := ih hne
      simp only [joinNL, String.data_append, List.count_append, this,
        List.map_cons, List.sum_cons, List.length_cons]
      have hnl : ("\n".data.count '\n') = 1 := by decide
      simp [hnl]
      omega

/-- Joining whitespace-only strings with `"\n"` yields a
whitespace-only string. -/
theorem joinNL_all_whitespace :
    ∀ ts : List String, (∀ t ∈ ts, t.data.all Char.isWhitespace) →
      (joinNL ts).data.all Char.isWhitespace := by
  intro ts
  induction ts with
  | nil => intro _; decide
  | cons t ts ih =>
    intro h
    have ht : t.data.all Char.isWhitespace := h t (List.mem_cons_self t ts)
    have hts : ∀ u ∈ ts, u.data.all Char.isWhitespace :=
      fun u hu => h u (List.mem_cons_of_mem t hu)
    cases ts with
    | nil => simpa [joinNL] using ht
    | cons a as =>
      have := ih hts
      simp only [joinNL] at this ⊢
      simp only [String.data_append, List.all_append, this, ht]
      decide

/-- Concrete environment: three pages whose OCR texts are "A", "", "B";
every oracle succeeds.  Page images are represented by their texts. -/
def envABC : Env String Unit :=
  ⟨Except.ok (), Except.ok ["A", "", "B"], fun s => Except.ok s⟩

/-- C1: for every successful extraction over a sequence of page texts,
the returned result string equals the page texts joined in page order
with exactly one `"\n"` inserted per page boundary (`N` pages yield
`N - 1` separator newlines beyond the newlines inside the texts). -/
theorem c1_result_is_join (env : Env Img Err) (pages : List Img)
    (g : Img → String)
    (hw : env.writeStaged = Except.ok ())
    (hc : env.convert_from_path = Except.ok pages)
    (hocr : ∀ p ∈ pages, env.image_to_string p = Except.ok (g p)) :
    (pdf_to_text env).result = Except.ok (joinNL (pages.map g)) ∧
    (pages ≠ [] →
      (joinNL (pages.map g)).data.count '\n' =
        ((pages.map g).map (fun t => t.data.count '\n')).sum +
          (pages.length - 1)) := by
  constructor
  · simp [pdf_to_text, hw, hc,
      ocrLoop_all_ok env.image_to_string g pages.length pages 1 hocr,
      Except.map, intercalate_eq_joinNL]
  · intro h
    have hne : pages.map g ≠ [] := by simpa using h
    have := joinNL_count_newlines (pages.map g) hne
    simpa [List.length_map] using this

/-- C1 witness: three pages yielding "A", "", "B" produce "A\n\nB". -/
theorem c1_witness :
    (pdf_to_text envABC).result = Except.ok "A\n\nB" ∧
      ("A\n\nB".data.count '\n') = 2 := by
  have h := c1_result_is_join envABC ["A", "", "B"] id rfl rfl
    (fun p _ => rfl)
  refine ⟨?_, by decide⟩
  rw [h.1]
  rfl

/-- C2: for every valid `N`-page document on which rasterization and all
per-page OCR calls succeed, the progress sink is invoked exactly `N`
times, with `currentPage` taking the values `1..N` in strictly increasing
order and `totalPages = N` on every invocation. -/
theorem c2_progress_events (env : Env Img Err) (pages : List Img)
    (g : Img → String)
    (hw : env.writeStaged = Except.ok ())
    (hc : env.convert_from_path = Except.ok pages)
    (hocr : ∀ p ∈ pages, env.image_to_string p = Except.ok (g p)) :
    (pdf_to_text env).events =
      (List.range' 1 pages.length).map (fun k => (k, pages.length)) ∧
    (pdf_to_text env).events.length = pages.length ∧
    (pdf_to_text env).events.map Prod.fst = List.range' 1 pages.length ∧
    List.Pairwise (· < ·) ((pdf_to_text env).events.map Prod.fst) ∧
    (∀ ev ∈ (pdf_to_text env).events, ev.2 = pages.length) := by
  have hev : (pdf_to_text env).events =
      (List.range' 1 pages.length).map (fun k => (k, pages.length)) := by
    simp [pdf_to_text, hw, hc,
      ocrLoop_all_ok env.image_to_string g pages.length pages 1 hocr]
  refine ⟨hev, ?_, ?_, ?_, ?_⟩
  · simp [hev]
  · rw [hev, List.map_map]
    exact List.map_id _
  · have hfst : (pdf_to_text env).events.map Prod.fst =
        List.range' 1 pages.length := by
      rw [hev, List.map_map]
      exact List.map_id _
    rw [hfst]
    exact List.pairwise_lt_range' 1 pages.length
  · intro ev hmem
    rw [hev] at hmem
    rcases List.mem_map.mp hmem with ⟨k, _, hk⟩
    simp [← hk]

/-- C2 witness: the three-page run reports (1,3), (2,3), (3,3). -/
theorem c2_witness :
    (pdf_to_text envABC).events = [(1, 3), (2, 3), (3, 3)] := by
  have h := c2_progress_events envABC ["A", "", "B"] id rfl rfl
    (fun p _ => rfl)
  rw [h.1]
  rfl

/-- Concrete environment in which writing the staged bytes fails (the
temporary file was created but `tmp_file.write(pdf_file.read())`
raised). -/
def envWriteFail : Env Unit Unit :=
  ⟨Except.error (), Except.ok [], fun _ => Except.ok ""⟩

/-- C3 counterexample: when writing the staged bytes fails, the call
finishes by raising the error, yet the temporary file still exists —
the write happens before the `try`/`finally` of `src/app.py`, so the
`finally` cleanup never runs on this path. -/
theorem c3_counterexample :
    (pdf_to_text envWriteFail).result = Except.error () ∧
      (pdf_to_text envWriteFail).tmpExists = true := by
  exact ⟨rfl, rfl⟩

/-- C3 (amended): once the staged bytes were written successfully, the
temporary file does not exist after the call finishes, on every exit
path — returned result, rasterization failure, or per-page OCR
failure. -/
theorem c3_tmp_removed (env : Env Img Err)
    (hw : env.writeStaged = Except.ok ()) :
    (pdf_to_text env).tmpExists = false := by
  rcases hc : env.convert_from_path with e | pages <;>
    simp [pdf_to_text, hw, hc]

/-- C3 witness: the temporary file is gone after the successful
three-page run. -/
theorem c3_witness : (pdf_to_text envABC).tmpExists = false :=
  c3_tmp_removed envABC rfl

/-- Concrete environment with two pages whose OCR fails on the second
page. -/
def envFail : Env String Unit :=
  ⟨Except.ok (), Except.ok ["A", "X"],
   fun s => if s = "X" then Except.error () else Except.ok s⟩

/-- C4: if the OCR engine fails on the page at 1-based index
`k = good.length + 1`, the extraction aborts with that error: no string
is returned (no partial result), and the engine was called exactly once
on each of pages `1..k` (in particular page `k` is not retried). -/
theorem c4_ocr_failure_aborts (env : Env Img Err) (good : List Img)
    (bad : Img) (rest : List Img) (g : Img → String) (e : Err)
    (hw : env.writeStaged = Except.ok ())
    (hc : env.convert_from_path = Except.ok (good ++ bad :: rest))
    (hgood : ∀ p ∈ good, env.image_to_string p = Except.ok (g p))
    (hbad : env.image_to_string bad = Except.error e) :
    (pdf_to_text env).result = Except.error e ∧
    (∀ s, (pdf_to_text env).result ≠ Except.ok s) ∧
    (pdf_to_text env).calls = List.range' 1 (good.length + 1) ∧
    (pdf_to_text env).calls.Nodup := by
  have hloop := ocrLoop_first_fail env.image_to_string g
    (good ++ bad :: rest).length bad e rest hbad good 1 hgood
  have hres : (pdf_to_text env).result = Except.error e := by
    simp only [pdf_to_text, hw, hc]
    rw [hloop]
    rfl
  have hcalls : (pdf_to_text env).calls =
      List.range' 1 (good.length + 1) := by
    simp only [pdf_to_text, hw, hc]
    rw [hloop]
  refine ⟨hres, ?_, hcalls, ?_⟩
  · intro s hs
    rw [hres] at hs
    exact Except.noConfusion hs
  · rw [hcalls]
    exact List.nodup_range' 1 (good.length + 1)

/-- C4 witness: with OCR failing on page 2 of 2, the run errors and the
engine was called once on page 1 and once on page 2. -/
theorem c4_witness :
    (pdf_to_text envFail).result = Except.error () ∧
      (pdf_to_text envFail).calls = [1, 2] := by
  have h := c4_ocr_failure_aborts envFail ["A"] "X" [] id () rfl rfl
    (by intro p hp; rw [List.mem_singleton] at hp; subst hp; rfl) rfl
  exact ⟨h.1, by rw [h.2.2.1]; rfl⟩

/-- Concrete environment whose rasterizer rejects the input bytes. -/
def envBadPdf : Env Unit String :=
  ⟨Except.ok (), Except.error "not a PDF", fun _ => Except.ok ""⟩

/-- C5: when the rasterizer rejects the input, extraction propagates
exactly the rasterizer's error (the underlying cause), returns no
string, reports no progress and never calls the OCR engine. -/
theorem c5_raster_failure (env : Env Img Err) (e : Err)
    (hw : env.writeStaged = Except.ok ())
    (hc : env.convert_from_path = Except.error e) :
    (pdf_to_text env).result = Except.error e ∧
    (∀ s, (pdf_to_text env).result ≠ Except.ok s) ∧
    (pdf_to_text env).events = [] ∧
    (pdf_to_text env).calls = [] := by
  have hres : (pdf_to_text env).result = Except.error e := by
    simp [pdf_to_text, hw, hc]
  refine ⟨hres, ?_, ?_, ?_⟩
  · intro s hs
    rw [hres] at hs
    exact Except.noConfusion hs
  · simp [pdf_to_text, hw, hc]
  · simp [pdf_to_text, hw, hc]

/-- C5 witness: a rejected byte stream propagates the cause "not a
PDF". -/
theorem c5_witness :
    (pdf_to_text envBadPdf).result = Except.error "not a PDF" := by
  have h := c5_raster_failure envBadPdf "not a PDF" rfl rfl
  exact h.1

/-- Concrete one-page environment whose OCR fails on page 1. -/
def envFail1 : Env Unit Unit :=
  ⟨Except.ok (), Except.ok [()], fun _ => Except.error ()⟩

/-- C6 counterexample: on a one-page document whose only OCR call fails,
the run has reported progress (1, 1) even though no page's OCR ever
completed — the report on lines 26-27 of `src/app.py` precedes the OCR
call on line 29, so the claim "progress only for pages 1..k-1" fails. -/
theorem c6_counterexample :
    (pdf_to_text envFail1).result = Except.error () ∧
      (pdf_to_text envFail1).events = [(1, 1)] := by
  exact ⟨rfl, rfl⟩

/-- C6 (amended): the progress report `(i, totalPages)` is emitted
before page `i`'s OCR call, so a run that fails during OCR of page
`k = good.length + 1` has reported progress for exactly pages `1..k`
(the failing page included). -/
theorem c6_progress_precedes_ocr (env : Env Img Err) (good : List Img)
    (bad : Img) (rest : List Img) (g : Img → String) (e : Err)
    (hw : env.writeStaged = Except.ok ())
    (hc : env.convert_from_path = Except.ok (good ++ bad :: rest))
    (hgood : ∀ p ∈ good, env.image_to_string p = Except.ok (g p))
    (hbad : env.image_to_string bad = Except.error e) :
    (pdf_to_text env).result = Except.error e ∧
    (pdf_to_text env).events =
      (List.range' 1 (good.length + 1)).map
        (fun k => (k, (good ++ bad :: rest).length)) := by
  have hloop := ocrLoop_first_fail env.image_to_string g
    (good ++ bad :: rest).length bad e rest hbad good 1 hgood
  constructor
  · simp only [pdf_to_text, hw, hc]
    rw [hloop]
    rfl
  · simp only [pdf_to_text, hw, hc]
    rw [hloop]

/-- C6 witness: failing on page 2 of 2, the run has reported (1, 2) and
(2, 2). -/
theorem c6_witness :
    (pdf_to_text envFail).events = [(1, 2), (2, 2)] := by
  have h := c6_progress_precedes_ocr envFail ["A"] "X" [] id () rfl rfl
    (by intro p hp; rw [List.mem_singleton] at hp; subst hp; rfl) rfl
  rw [h.2]
  rfl

theorem hasPdf_cons_false {c : Char} {cs : List Char}
    (h : hasPdf (c :: cs) = false) : hasPdf cs = false := by
  rw [hasPdf.eq_def] at h
  split at h
  · exact absurd h (by simp)
  · rename_i h2
    injection h2 with _ h3
    rw [h3]
    exact h
  · rename_i h2
    exact absurd h2 (by simp)

/-- Removing every occurrence of `".pdf"` from `stem ++ ".pdf"` leaves
exactly `stem` whenever `".pdf"` does not occur inside `stem`: on such
names, Python's replace-all coincides with stripping the suffix. -/
theorem dropPdfAll_append_pdf :
    ∀ stem : List Char, hasPdf stem = false →
      dropPdfAll (stem ++ ['.', 'p', 'd', 'f']) = stem := by
  intro stem
  induction stem using dropPdfAll.induct with
  | case1 rest ih => intro h; simp [hasPdf] at h
  | case2 c cs h1 ih =>
    intro h
    have hcs := hasPdf_cons_false h
    have hih := ih hcs
    rcases cs with _ | ⟨c1, _ | ⟨c2, _ | ⟨c3, cs'⟩⟩⟩
    · simp [dropPdfAll]
    · simp [dropPdfAll] at hih ⊢
    · simp [dropPdfAll] at hih ⊢
    · simp only [List.cons_append]
      rw [dropPdfAll.eq_def]
      split
      · rename_i heq
        injection heq with e1 heq
        injection heq with e2 heq
        injection heq with e3 heq
        injection heq with e4 heq
        subst e1; subst e2; subst e3; subst e4
        simp [hasPdf] at h
      · rename_i heq
        injection heq with e1 e2
        subst e1
        rw [← e2]
        simp only [List.cons_append] at hih
        rw [hih]
      · rename_i heq
        exact absurd heq (by simp)
  | case3 => intro _; rfl

/-- C7 counterexample: for the original name "a.pdf.pdf" (which contains
".pdf" as an interior substring), the code's download name removes both
occurrences and yields "a_extracted.txt", while removing only the ".pdf"
suffix would yield "a.pdf_extracted.txt" — the two disagree, refuting the
claim that the name is obtained by removing the suffix for every original
name. -/
theorem c7_counterexample :
    download_file_name "a.pdf.pdf" = "a_extracted.txt" ∧
    specSuffixName "a.pdf.pdf" = "a.pdf_extracted.txt" ∧
    download_file_name "a.pdf.pdf" ≠ specSuffixName "a.pdf.pdf" := by
  exact ⟨by decide, by decide, by decide⟩

/-- C7 (amended): the download name is the original name with every
occurrence of ".pdf" removed, followed by "_extracted.txt", offered with
MIME type text/plain; when ".pdf" occurs in the original name only as
the final suffix, this coincides with removing that suffix. -/
theorem c7_download_name (stem : List Char) (hs : hasPdf stem = false) :
    download_file_name (String.mk (stem ++ ['.', 'p', 'd', 'f'])) =
      String.mk stem ++ "_extracted.txt" ∧
    download_mime = "text/plain" := by
  constructor
  · simp only [download_file_name]
    rw [dropPdfAll_append_pdf stem hs]
  · rfl

/-- C7 witness: "doc.pdf" yields "doc_extracted.txt", MIME
text/plain. -/
theorem c7_witness :
    download_file_name "doc.pdf" = "doc_extracted.txt" ∧
      download_mime = "text/plain" :=
  c7_download_name "doc".data (by decide)

/-- Concrete environment whose pages OCR to whitespace-only texts. -/
def envWS : Env String Unit :=
  ⟨Except.ok (), Except.ok ["", " "], fun s => Except.ok s⟩

/-- C8: when every page OCRs successfully to a whitespace-only string,
extraction returns normally with a whitespace-only result, which `main`
surfaces as the no-text-found warning — not as the error outcome. -/
theorem c8_empty_is_warning (env : Env Img Err) (pages : List Img)
    (g : Img → String)
    (hw : env.writeStaged = Except.ok ())
    (hc : env.convert_from_path = Except.ok pages)
    (hocr : ∀ p ∈ pages, env.image_to_string p = Except.ok (g p))
    (hws : ∀ p ∈ pages, (g p).data.all Char.isWhitespace = true) :
    (pdf_to_text env).result = Except.ok (joinNL (pages.map g)) ∧
    (joinNL (pages.map g)).data.all Char.isWhitespace = true ∧
    main_render (pdf_to_text env).result = UiOutcome.warning ∧
    main_render (pdf_to_text env).result ≠ UiOutcome.error := by
  have hres : (pdf_to_text env).result =
      Except.ok (joinNL (pages.map g)) := by
    simp [pdf_to_text, hw, hc,
      ocrLoop_all_ok env.image_to_string g pages.length pages 1 hocr,
      Except.map, intercalate_eq_joinNL]
  have hall : (joinNL (pages.map g)).data.all Char.isWhitespace = true := by
    apply joinNL_all_whitespace
    intro t ht
    rcases List.mem_map.mp ht with ⟨p, hp, rfl⟩
    exact hws p hp
  have hany : (joinNL (pages.map g)).data.any
      (fun c => !c.isWhitespace) = false := by
    rw [List.any_eq_false]
    intro c hcmem
    have hcw := List.all_eq_true.mp hall c hcmem
    simp [hcw]
  have hwarn : main_render (pdf_to_text env).result = UiOutcome.warning := by
    rw [hres]
    simp [main_render, hany]
  refine ⟨hres, hall, hwarn, ?_⟩
  rw [hwarn]
  simp

/-- C8 witness: two whitespace-only pages end in the warning outcome. -/
theorem c8_witness :
    main_render (pdf_to_text envWS).result = UiOutcome.warning := by
  have h := c8_empty_is_warning envWS ["", " "] id rfl rfl
    (fun p _ => rfl)
    (by intro p hp; simp at hp; rcases hp with rfl | rfl <;> decide)
  exact h.2.2.1

/-- A second copy of the three-page environment, defined separately. -/
def envABC2 : Env String Unit :=
  ⟨Except.ok (), Except.ok ["A", "", "B"], fun s => Except.ok s⟩

/-- C9: extraction is deterministic — its entire observable behaviour is
a function of the observable behaviour of the external collaborators, so
two calls over identically behaving collaborators produce identical
results; there is no hidden state carried from one call into the next
(`pdf_to_text` in `src/app.py` touches no module-level mutable state:
every name it writes is call-local). -/
theorem c9_deterministic (env1 env2 : Env Img Err)
    (h1 : env1.writeStaged = env2.writeStaged)
    (h2 : env1.convert_from_path = env2.convert_from_path)
    (h3 : env1.image_to_string = env2.image_to_string) :
    pdf_to_text env1 = pdf_to_text env2 := by
  cases env1
  cases env2
  cases h1
  cases h2
  cases h3
  rfl

/-- C9 witness: two separately built but identically behaving
environments yield identical runs. -/
theorem c9_witness : pdf_to_text envABC = pdf_to_text envABC2 :=
  c9_deterministic envABC envABC2 rfl rfl rfl

/-- Concrete environment whose rasterizer yields zero pages. -/
def envEmpty : Env Unit Unit :=
  ⟨Except.ok (), Except.ok [], fun _ => Except.ok ""⟩

/-- C10: a zero-page document extracts to the empty string with no
progress report and no OCR call and no error; moreover, over every
environment, any progress report ever emitted has a positive
`totalPages`, because the loop body (where `i / len(pages)` is computed)
only runs when the page list is non-empty. -/
theorem c10_zero_pages (env : Env Img Err)
    (hw : env.writeStaged = Except.ok ())
    (hc : env.convert_from_path = Except.ok ([] : List Img)) :
    (pdf_to_text env).result = Except.ok "" ∧
    (pdf_to_text env).events = [] ∧
    (pdf_to_text env).calls = [] ∧
    (∀ (env' : Env Img Err) (ev : Nat × Nat),
        ev ∈ (pdf_to_text env').events → 0 < ev.2) := by
  refine ⟨?_, ?_, ?_, ?_⟩
  · simp [pdf_to_text, hw, hc, ocrLoop, Except.map, String.intercalate]
  · simp [pdf_to_text, hw, hc, ocrLoop]
  · simp [pdf_to_text, hw, hc, ocrLoop]
  · intro env' ev hmem
    rcases hwE : env'.writeStaged with e | u
    · simp [pdf_to_text, hwE] at hmem
    · rcases hcE : env'.convert_from_path with e | pages
      · simp [pdf_to_text, hwE, hcE] at hmem
      · have hsnd := ocrLoop_events_snd env'.image_to_string pages.length
          pages 1 ev (by simpa [pdf_to_text, hwE, hcE] using hmem)
        rcases pages with _ | ⟨p, ps⟩
        · simp [pdf_to_text, hwE, hcE, ocrLoop] at hmem
        · rw [hsnd]
          simp

/-- C10 witness: the zero-page run returns "" and reports nothing. -/
theorem c10_witness :
    (pdf_to_text envEmpty).result = Except.ok "" ∧
      (pdf_to_text envEmpty).events = [] := by
  have h := c10_zero_pages envEmpty rfl rfl
  exact ⟨h.1, h.2.1⟩
